import Mathlib

/-!
Shallow embedding of the lead-to-buyer matching and assignment engine of
the easyexithub repository.

Embedded source units:
* `src/src/utils/buyerMatcher.ts` — tier classifier, market matcher,
  score calculator, match ranker, match statistics (the `buyerMatcher`
  object: `getTierLevel`, `getTierLabel`, `servesMarket`,
  `calculateScore`, `findMatches`, `getTopMatches`, `getMatchStats`).
* `src/unnamed/part_015` (LeadsContext provider) — `updateLead` and
  `assignLeadToBuyer` over the leads store.
* `src/src/App.tsx` (deal helpers section) — `createDeal` over the
  deals store.
* `src/unnamed/part_008` (ImportLeadsPage) — `importLeads` over the
  leads store.

JavaScript strings are modelled as `String` / `List Char`; absent
(`undefined`) fields as `Option`; JS numbers in the score computation as
`ℚ` (that arithmetic is exact in IEEE doubles at the magnitudes
involved), while the multiplication inside `createDeal` is modelled as
genuine IEEE-754 binary64 arithmetic (`roundB64` / `dmul`, round to
nearest, ties to even), since `Math.floor(estimatedArv * 0.7)` is
sensitive to the rounding of the product; the hosted datastore tables
as Lean lists with explicit state passing.  JS string falsiness (`!s`
true for both `undefined` and `""`) is modelled explicitly wherever the
source relies on it.
-/

/-- ASCII lower-casing of one character, as JS `toLowerCase` acts on the
ASCII range used by the data (letters A through Z map down by 32). -/
def charLower (c : Char) : Char :=
  if 'A' ≤ c ∧ c ≤ 'Z' then Char.ofNat (c.toNat + 32) else c

/-- Model of `s.toLowerCase()` on the character list of a JS string. -/
def lowerChars (cs : List Char) : List Char :=
  cs.map charLower

/-- Does the first list start with the second (helper for substring
containment)? -/
def startsWithC : List Char → List Char → Bool
  | _, [] => true
  | [], _ :: _ => false
  | c :: cs, d :: ds => c == d && startsWithC cs ds

/-- JS `hay.includes(needle)`: `needle` occurs contiguously in `hay`. -/
def hasSub : List Char → List Char → Bool
  | [], needle => needle.isEmpty
  | c :: cs, needle => startsWithC (c :: cs) needle || hasSub cs needle

/-- Buyer record (fields used by the matcher), from the `Buyer`
interface in `src/src/utils/buyerMatcher.ts`. -/
structure Buyer where
  id : Nat
  company_name : String
  target_markets : Option String := none
  notes : Option String := none
  reliability_score : Option ℚ := none
  contact_phone : Option String := none
  contact_email : Option String := none
deriving DecidableEq, Repr

/-- Market record (`{ id, name }`) attached to a lead. -/
structure Market where
  id : Nat
  name : String
deriving DecidableEq, Repr

/-- Lead record (fields of the `Lead` interface in
`src/src/utils/buyerMatcher.ts`). -/
structure Lead where
  id : Nat
  market_id : Nat
  estimated_arv : Option ℚ := none
  estimated_equity : Option ℚ := none
  market : Option Market := none
deriving DecidableEq, Repr

/-- Model of `buyerMatcher.getTierLevel(notes)`: tier from free-text notes.
JS `!notes` is true for absent and for empty notes. -/
def getTierLevel (notes : Option String) : Nat :=
  match notes with
  | none => 3
  | some s =>
    if s = "" then 3
    else
      let lower := lowerChars s.data
      if hasSub lower "tier 1".data || hasSub lower "hot".data then 1
      else if hasSub lower "tier 2".data || hasSub lower "warm".data then 2
      else 3

/-- Model of `buyerMatcher.getTierLabel(notes)`. -/
def getTierLabel (notes : Option String) : String :=
  match getTierLevel notes with
  | 1 => "Tier 1 HOT"
  | 2 => "Tier 2 WARM"
  | _ => "Tier 3 ACTIVE"

/-- Model of `buyerMatcher.servesMarket(buyer, marketName)`.  The guard
`!buyer.target_markets || !marketName` is JS-falsy: it also fires on
empty strings. -/
def servesMarket (buyer : Buyer) (marketName : Option String) : Bool :=
  match buyer.target_markets, marketName with
  | some t, some m =>
    if t = "" ∨ m = "" then true
    else
      let targets := lowerChars t.data
      let market := lowerChars m.data
      if hasSub targets market then true
      else if hasSub targets "multi".data then true
      else false
  | _, _ => true

/-- The raw additive sum inside `buyerMatcher.calculateScore`, before
the final `Math.min(100, score)`: tier points plus market points plus
reliability points.  The `lead` argument is received, as in the source,
but never read. -/
def calculateScoreRaw (buyer : Buyer) (lead : Lead) (marketName : Option String) : ℚ :=
  let tier := getTierLevel buyer.notes
  let tierPts : ℚ := if tier = 1 then 50 else if tier = 2 then 30 else 10
  let marketPts : ℚ := if servesMarket buyer marketName then 40 else 0
  let relPts : ℚ :=
    match buyer.reliability_score with
    | some r => if 0 < r then min 20 (r / 10 * 20) else 0
    | none => 0
  tierPts + marketPts + relPts

/-- Model of `buyerMatcher.calculateScore(buyer, lead, marketName)`: returns
`Math.min(100, score)` where `score` is the raw sum. -/
def calculateScore (buyer : Buyer) (lead : Lead) (marketName : Option String) : ℚ :=
  min 100 (calculateScoreRaw buyer lead marketName)

/-- The `MatchResult` shape: the buyer spread together with `match_score`, `tier`
and `tier_label`. -/
structure MatchResult extends Buyer where
  match_score : ℚ
  tier : Nat
  tier_label : String
deriving DecidableEq, Repr

/-- The comparator passed to `.sort` in `findMatches`, as the ordering
relation it induces: `a` comes no later than `b` iff `a.tier < b.tier`,
or the tiers are equal and `a.match_score ≥ b.match_score`. -/
def matchBefore (a b : MatchResult) : Prop :=
  a.tier < b.tier ∨ (a.tier = b.tier ∧ b.match_score ≤ a.match_score)

instance : DecidableRel matchBefore := fun a b => by
  unfold matchBefore; infer_instance

/-- Model of `buyerMatcher.findMatches(lead, buyers, marketName)`: filter to
market-eligible buyers, decorate each with score/tier/label, then
stable-sort by the comparator (JS `Array.prototype.sort` is stable;
`List.insertionSort` is the stable sort by `matchBefore`). -/
def findMatches (lead : Lead) (buyers : List Buyer) (marketName : Option String) :
    List MatchResult :=
  List.insertionSort matchBefore
    ((buyers.filter (fun b => servesMarket b marketName)).map (fun b =>
      { toBuyer := b
        match_score := calculateScore b lead marketName
        tier := getTierLevel b.notes
        tier_label := getTierLabel b.notes }))

/-- Model of `buyerMatcher.getTopMatches(lead, buyers, marketName, limit = 5)`:
`findMatches(...).slice(0, limit)`. -/
def getTopMatches (lead : Lead) (buyers : List Buyer) (marketName : Option String)
    (limit : Nat := 5) : List MatchResult :=
  (findMatches lead buyers marketName).take limit

/-- Return shape of `buyerMatcher.getMatchStats`. -/
structure MatchStats where
  total_matches : Nat
  tier1_count : Nat
  tier2_count : Nat
  tier3_count : Nat
  top_match : Option MatchResult
  top_match_score : Option ℚ
deriving DecidableEq, Repr

/-- Model of `buyerMatcher.getMatchStats(lead, buyers, marketName)`. -/
def getMatchStats (lead : Lead) (buyers : List Buyer) (marketName : Option String) :
    MatchStats :=
  let ms := findMatches lead buyers marketName
  { total_matches := ms.length
    tier1_count := (ms.filter (fun m => m.tier == 1)).length
    tier2_count := (ms.filter (fun m => m.tier == 2)).length
    tier3_count := (ms.filter (fun m => m.tier == 3)).length
    top_match := ms.head?
    top_match_score := ms.head?.map (fun m => m.match_score) }

/-- A row of the hosted `leads` table (fields used by the assignment
and import paths; see the `Lead` interface in
`src/src/integrations/supabase/schema-setup.ts`). -/
structure LeadRow where
  id : Nat
  property_address : String
  market : Option String := none
  estimated_arv : Option ℚ := none
  lead_status : Option String := none
  assigned_buyer_id : Option Nat := none
  assignment_date : Option String := none
  deal_status : Option String := none
  updated_at : Option String := none
deriving DecidableEq, Repr

/-- Model of `updateLead(id, updates)` from the LeadsContext provider
(`src/unnamed/part_015`): apply the patch (plus an `updated_at`
timestamp) to every stored lead whose id matches. -/
def updateLead (id : Nat) (patch : LeadRow → LeadRow) (now : String)
    (store : List LeadRow) : List LeadRow :=
  store.map fun l => if l.id = id then { patch l with updated_at := some now } else l

/-- Model of `assignLeadToBuyer(leadId, buyerId)` from the LeadsContext provider
(`src/unnamed/part_015`, lines 132–144): a single `updateLead` call
setting `assigned_buyer_id`, `assignment_date` and
`deal_status` to the assigned state.  `now` stands for `new Date().toISOString()`. -/
def assignLeadToBuyer (leadId buyerId : Nat) (now : String)
    (store : List LeadRow) : List LeadRow :=
  updateLead leadId
    (fun l => { l with
      assigned_buyer_id := some buyerId
      assignment_date := some now
      deal_status := some "assigned" })
    now store

/-- Round a rational to the nearest integer, ties to even — the
rounding of an IEEE-754 significand. -/
def rne (m : ℚ) : ℤ :=
  let f := ⌊m⌋
  let r := m - (f : ℚ)
  if r < 1 / 2 then f
  else if 1 / 2 < r then f + 1
  else if f % 2 = 0 then f else f + 1

/-- Round a rational to the nearest IEEE-754 binary64 value (round to
nearest, ties to even), for magnitudes in the normal range: scale the
magnitude into `[2^52, 2^53)`, round the scaled significand to an
integer with `rne`, and scale back.  Overflow and subnormals are not
modelled; every value the application computes stays far inside the
normal range. -/
def roundB64 (q : ℚ) : ℚ :=
  if q = 0 then 0
  else
    let s : ℚ := if q < 0 then -1 else 1
    let a := |q|
    let e := Int.log 2 a
    let m := a * (2 : ℚ) ^ (52 - e)
    s * (rne m : ℚ) * (2 : ℚ) ^ (e - 52)

/-- JS multiplication of two doubles: the exact product, rounded back
to binary64. -/
def dmul (x y : ℚ) : ℚ :=
  roundB64 (x * y)

/-- The IEEE-754 binary64 value the literal `0.7` denotes:
`3152519739159347 / 2^52`, slightly below 7/10. -/
def c07 : ℚ := 3152519739159347 / 4503599627370496

/-- A row of the hosted `deals` table, with the columns written by
`createDeal` in `src/src/App.tsx`. -/
structure Deal where
  lead_id : Nat
  buyer_id : Nat
  property_address : String
  market : String
  list_price : ℚ
  offer_price : ℚ
  status : String
  assigned_date : String
deriving DecidableEq, Repr

/-- Model of `createDeal(leadId, buyerId, ownerName, marketName, estimatedArv)`
from `src/src/App.tsx`: insert one `deals` row.  `offer_price` is
`Math.floor(estimatedArv * 0.7)` computed in IEEE-754 doubles: the
literal `0.7` denotes `c07` and the product is rounded to binary64
(`dmul`) before the floor (`estimatedArv` itself is assumed exactly
representable, as every stored dollar amount is).  The source stores
`ownerName` in the `property_address` column. -/
def createDeal (leadId buyerId : Nat) (ownerName marketName : String)
    (estimatedArv : ℚ) (now : String) (deals : List Deal) : List Deal :=
  deals ++ [{ lead_id := leadId
              buyer_id := buyerId
              property_address := ownerName
              market := marketName
              list_price := estimatedArv
              offer_price := ((⌊dmul estimatedArv c07⌋ : ℤ) : ℚ)
              status := "assigned"
              assigned_date := now }]

/-- The datastore state relevant to assignment: the `leads` table and
the `deals` table. -/
structure AppState where
  leads : List LeadRow
  deals : List Deal
deriving DecidableEq, Repr

/-- The assignment action as the repository actually performs it: the
UI invokes `assignLeadToBuyer`, which only runs `updateLead` on the
`leads` table.  No call site of `createDeal` exists anywhere in the
repository, so the `deals` table is untouched by an assignment. -/
def assignAction (leadId buyerId : Nat) (now : String) (s : AppState) : AppState :=
  { s with leads := assignLeadToBuyer leadId buyerId now s.leads }

/-- One loop iteration of `importLeads` in `src/unnamed/part_008`
(ImportLeadsPage).  The duplicate lookup is
`select(id).eq(property_address, ...).single()`, and `.single()` yields
a data row exactly when precisely one stored row matches; on zero or on
several matching rows it reports an error with null data, and the code
destructures only the data.  Hence: exactly one matching address →
skip without touching any counter (the source only logs the
duplicate); zero or several matching addresses → insert and increment
`successCount`.  `errorCount` only moves on datastore write failures,
which are external to this model, so it stays fixed. -/
def importStep (acc : List LeadRow × Nat × Nat) (processed : LeadRow) :
    List LeadRow × Nat × Nat :=
  let (store, success, errors) := acc
  if (store.filter
        (fun l => l.property_address == processed.property_address)).length = 1 then
    (store, success, errors)
  else
    (store ++ [processed], success + 1, errors)

/-- Model of `importLeads` from `src/unnamed/part_008`, lines 33–84: iterate the
candidate batch against the live store (an insert earlier in the batch
is visible to later duplicate checks) and report
`{ success: successCount, errors: errorCount }`. -/
def importLeads (candidates : List LeadRow) (store : List LeadRow) :
    List LeadRow × Nat × Nat :=
  candidates.foldl importStep (store, 0, 0)

/-- A buyer with no notes and no target markets (tier 3, serves any
market). -/
def buyerPlain : Buyer := { id := 1, company_name := "Acme Capital" }

/-- A tier-1 buyer with maximum reliability. -/
def buyerHot : Buyer :=
  { id := 2, company_name := "Hot Homes LLC", notes := some "Tier 1"
    reliability_score := some 10 }

/-- A buyer whose target-markets text carries the multi-market marker. -/
def buyerMulti : Buyer :=
  { id := 3, company_name := "Everywhere Equity", target_markets := some "Multi-Market" }

/-- A buyer scoped to the Birmingham market. -/
def buyerBirmingham : Buyer :=
  { id := 4, company_name := "Bham Buys", target_markets := some "Birmingham, AL"
    notes := some "Tier 2 warm" }

/-- A concrete lead used to instantiate the matcher. -/
def lead0 : Lead := { id := 10, market_id := 1 }

/-- A second concrete lead, with financial fields, distinct from `lead0`. -/
def lead1 : Lead := { id := 11, market_id := 2, estimated_arv := some 250000 }

/-- A stored lead row. -/
def rowMain : LeadRow := { id := 1, property_address := "123 Main St" }

/-- A second stored lead row with a different address. -/
def rowOak : LeadRow := { id := 2, property_address := "9 Oak Ave" }

/-- Datastore state holding one unassigned lead and no deals. -/
def state0 : AppState := { leads := [rowMain], deals := [] }

/-- Row `rowMain` after being assigned to buyer 7 at time `"t0"`. -/
def rowMainAssigned : LeadRow :=
  { rowMain with
    assigned_buyer_id := some 7
    assignment_date := some "t0"
    deal_status := some "assigned"
    updated_at := some "t0" }

/-- The match result `findMatches` produces for `buyerPlain` (tier 3,
permissive market match, no reliability): score `min 100 (10+40+0)`. -/
def m0 : MatchResult :=
  { toBuyer := buyerPlain, match_score := 50, tier := 3, tier_label := "Tier 3 ACTIVE" }

/-- The deal row `createDeal 1 7 "John Doe" "Birmingham, AL" 90000 "t0"`
inserts.  In doubles `90000 * 0.7 = 62999.99999999999`, so the floored
offer price is 62999 — one dollar below the exact 70% of 90000. -/
def dealLit : Deal :=
  { lead_id := 1, buyer_id := 7, property_address := "John Doe"
    market := "Birmingham, AL", list_price := 90000, offer_price := 62999
    status := "assigned", assigned_date := "t0" }

instance : IsTrans MatchResult matchBefore where
  trans a b c hab hbc := by
    rcases hab with h1 | ⟨h1, h2⟩
    · rcases hbc with h3 | ⟨h3, _⟩
      · exact Or.inl (h1.trans h3)
      · exact Or.inl (h3 ▸ h1)
    · rcases hbc with h3 | ⟨h3, h4⟩
      · exact Or.inl (h1 ▸ h3)
      · exact Or.inr ⟨h1.trans h3, h4.trans h2⟩

instance : IsTotal MatchResult matchBefore where
  total a b := by
    rcases Nat.lt_trichotomy a.tier b.tier with h | h | h
    · exact Or.inl (Or.inl h)
    · rcases le_total b.match_score a.match_score with hs | hs
      · exact Or.inl (Or.inr ⟨h, hs⟩)
      · exact Or.inr (Or.inr ⟨h.symm, hs⟩)
    · exact Or.inr (Or.inl h)

/-- The ordering invariant the spec states for a ranked list: tiers
appear in non-decreasing order, and within a run of equal tier the
score is non-increasing. -/
def RankedOrdered (l : List MatchResult) : Prop :=
  List.Pairwise
    (fun a b => a.tier ≤ b.tier ∧ (a.tier = b.tier → b.match_score ≤ a.match_score)) l

/-- C1: for every lead, buyer collection and limit, the ranked lists
produced by `findMatches` and `getTopMatches` have non-decreasing tiers
and non-increasing scores within equal tiers, and the truncated list
has length at most the requested limit. -/
theorem findMatches_ranked_ordering (lead : Lead) (buyers : List Buyer)
    (marketName : Option String) (limit : Nat) :
    RankedOrdered (findMatches lead buyers marketName) ∧
    RankedOrdered (getTopMatches lead buyers marketName limit) ∧
    (getTopMatches lead buyers marketName limit).length ≤ limit := by
  have hsorted : List.Sorted matchBefore (findMatches lead buyers marketName) :=
    List.sorted_insertionSort matchBefore _
  have hord : RankedOrdered (findMatches lead buyers marketName) := by
    refine List.Pairwise.imp ?_ hsorted
    intro a b hab
    rcases hab with h | ⟨h1, h2⟩
    · exact ⟨Nat.le_of_lt h, fun he => absurd he (Nat.ne_of_lt h)⟩
    · exact ⟨Nat.le_of_eq h1, fun _ => h2⟩
  refine ⟨hord, ?_, ?_⟩
  · exact List.Pairwise.sublist (List.take_sublist _ _) hord
  · unfold getTopMatches
    rw [List.length_take]
    exact min_le_left _ _

/-- C7: `getMatchStats` reports as `total_matches` exactly the length
of the full, untruncated list `findMatches` produces on the same
inputs. -/
theorem getMatchStats_total_matches (lead : Lead) (buyers : List Buyer)
    (marketName : Option String) :
    (getMatchStats lead buyers marketName).total_matches =
      (findMatches lead buyers marketName).length := rfl

/-- C8: when no buyer in the collection serves the market of the lead,
`findMatches` returns the empty list (a value, not an error: the
embedding is a total function). -/
theorem findMatches_empty_of_no_market_match (lead : Lead) (buyers : List Buyer)
    (marketName : Option String)
    (h : ∀ b ∈ buyers, servesMarket b marketName = false) :
    findMatches lead buyers marketName = [] := by
  unfold findMatches
  have hf : buyers.filter (fun b => servesMarket b marketName) = [] := by
    rw [List.filter_eq_nil_iff]
    intro b hb
    simp [h b hb]
  rw [hf]
  rfl

/-- Witness for C8 at a concrete input: a Birmingham-only buyer never
matches a Denver lead, and the ranked list is empty. -/
theorem findMatches_empty_witness :
    findMatches lead0 [buyerBirmingham] (some "Denver, CO") = [] :=
  findMatches_empty_of_no_market_match lead0 [buyerBirmingham] (some "Denver, CO")
    (by decide)

/-- C10: the ranked list, the truncated list and the statistics depend
only on the buyer collection and the market-name argument — never on
the lead record itself. -/
theorem match_outputs_lead_independent (leadA leadB : Lead) (buyers : List Buyer)
    (marketName : Option String) (limit : Nat) :
    findMatches leadA buyers marketName = findMatches leadB buyers marketName ∧
    getTopMatches leadA buyers marketName limit =
      getTopMatches leadB buyers marketName limit ∧
    getMatchStats leadA buyers marketName = getMatchStats leadB buyers marketName := by
  have h : findMatches leadA buyers marketName = findMatches leadB buyers marketName := rfl
  exact ⟨h, by unfold getTopMatches; rw [h], by unfold getMatchStats; rw [h]⟩

lemma buyerHot_raw_eq : calculateScoreRaw buyerHot lead0 none = 110 := by
  have h1 : getTierLevel buyerHot.notes = 1 := by decide
  have h2 : servesMarket buyerHot none = true := rfl
  have h3 : buyerHot.reliability_score = some 10 := rfl
  simp only [calculateScoreRaw, h1, h2, h3, if_true]
  norm_num [min_def]

/-- Counterexample to C3: a tier-1 buyer with a market match and
reliability 10 has raw sum `50 + 40 + 20 = 110 > 100`, so the cap at
100 is reached on a normal path. -/
theorem calculateScoreRaw_exceeds_100 :
    calculateScoreRaw buyerHot lead0 none = 110 ∧
    calculateScore buyerHot lead0 none = 100 := by
  refine ⟨buyerHot_raw_eq, ?_⟩
  unfold calculateScore
  rw [buyerHot_raw_eq]
  norm_num

/-- C3 as amended: the raw sum of tier, market and reliability
contributions is bounded by 110 (not 100); the final score is bounded
by 100, and whenever the raw sum exceeds 100 the cap actually clamps
the score to 100. -/
theorem calculateScore_bounds (buyer : Buyer) (lead : Lead)
    (marketName : Option String) :
    calculateScoreRaw buyer lead marketName ≤ 110 ∧
    calculateScore buyer lead marketName ≤ 100 ∧
    (100 < calculateScoreRaw buyer lead marketName →
      calculateScore buyer lead marketName = 100) := by
  have hraw : calculateScoreRaw buyer lead marketName ≤ 110 := by
    unfold calculateScoreRaw
    have htier :
        (if getTierLevel buyer.notes = 1 then (50 : ℚ)
         else if getTierLevel buyer.notes = 2 then 30 else 10) ≤ 50 := by
      split_ifs <;> norm_num
    have hmkt : (if servesMarket buyer marketName then (40 : ℚ) else 0) ≤ 40 := by
      split_ifs <;> norm_num
    have hrel :
        (match buyer.reliability_score with
         | some r => if 0 < r then min 20 (r / 10 * 20) else 0
         | none => (0 : ℚ)) ≤ 20 := by
      cases buyer.reliability_score with
      | none => norm_num
      | some r =>
        simp only
        split_ifs
        · exact min_le_left _ _
        · norm_num
    linarith
  refine ⟨hraw, min_le_left _ _, fun h => ?_⟩
  unfold calculateScore
  exact min_eq_left (le_of_lt h)

/-- Witness for C3-as-amended at `buyerHot`: raw sum 110 within the 110
bound, final score capped to exactly 100. -/
theorem calculateScore_bounds_witness :
    calculateScoreRaw buyerHot lead0 none ≤ 110 ∧
    calculateScore buyerHot lead0 none = 100 :=
  ⟨(calculateScore_bounds buyerHot lead0 none).1,
   (calculateScore_bounds buyerHot lead0 none).2.2
     (by rw [buyerHot_raw_eq]; norm_num)⟩

/-- C5: `servesMarket` is permissive — it returns true whenever the
target-markets text of the buyer or the market name of the lead is absent, and
returns true for any buyer whose (lower-cased) target-markets text
contains the multi-market marker, regardless of the market of the lead. -/
theorem servesMarket_permissive_and_multi (buyer : Buyer) (marketName : Option String) :
    ((buyer.target_markets = none ∨ marketName = none) →
      servesMarket buyer marketName = true) ∧
    (∀ t, buyer.target_markets = some t →
      hasSub (lowerChars t.data) "multi".data = true →
      servesMarket buyer marketName = true) := by
  constructor
  · intro h
    cases htm : buyer.target_markets with
    | none => cases marketName <;> simp [servesMarket, htm]
    | some t =>
      cases hm : marketName with
      | none => simp [servesMarket, htm]
      | some m =>
        rcases h with h | h
        · exact absurd (htm ▸ h) (by simp)
        · exact absurd (hm ▸ h) (by simp)
  · intro t ht hmulti
    cases hm : marketName with
    | none => simp [servesMarket, ht]
    | some m =>
      simp only [servesMarket, ht]
      by_cases he : t = "" ∨ m = ""
      · simp [he]
      · simp only [if_neg he]
        by_cases hin : hasSub (lowerChars t.data) (lowerChars m.data) = true
        · simp [hin]
        · simp [hin, hmulti]

/-- Witness for C5: an un-scoped buyer matches a named market, and a
multi-market buyer matches a market outside its literal list. -/
theorem servesMarket_permissive_witness :
    servesMarket buyerPlain (some "Denver, CO") = true ∧
    servesMarket buyerMulti (some "Denver, CO") = true :=
  ⟨(servesMarket_permissive_and_multi buyerPlain (some "Denver, CO")).1 (Or.inl rfl),
   (servesMarket_permissive_and_multi buyerMulti (some "Denver, CO")).2
     "Multi-Market" rfl (by decide)⟩

/-- C9: every match surviving the market filter scores at least 50:
the market contribution (40) plus the minimum tier contribution (10)
are always present, and the reliability contribution is never
negative. -/
theorem findMatches_score_lower_bound (lead : Lead) (buyers : List Buyer)
    (marketName : Option String) (m : MatchResult)
    (h : m ∈ findMatches lead buyers marketName) :
    50 ≤ m.match_score := by
  unfold findMatches at h
  have h' := (List.perm_insertionSort matchBefore _).mem_iff.mp h
  rcases List.mem_map.mp h' with ⟨b, hb, rfl⟩
  have hserve : servesMarket b marketName = true := (List.mem_filter.mp hb).2
  show (50 : ℚ) ≤ calculateScore b lead marketName
  unfold calculateScore
  refine le_min (by norm_num) ?_
  unfold calculateScoreRaw
  have htier :
      (10 : ℚ) ≤
        (if getTierLevel b.notes = 1 then (50 : ℚ)
         else if getTierLevel b.notes = 2 then 30 else 10) := by
    split_ifs <;> norm_num
  have hrel :
      (0 : ℚ) ≤
        (match b.reliability_score with
         | some r => if 0 < r then min 20 (r / 10 * 20) else 0
         | none => (0 : ℚ)) := by
    cases b.reliability_score with
    | none => norm_num
    | some r =>
      simp only
      split_ifs with hr
      · refine le_min (by norm_num) ?_
        positivity
      · norm_num
  simp only [hserve, if_true]
  linarith

lemma calculateScore_buyerPlain : calculateScore buyerPlain lead0 none = 50 := by
  have h1 : getTierLevel buyerPlain.notes = 3 := rfl
  have h2 : servesMarket buyerPlain none = true := rfl
  have h3 : buyerPlain.reliability_score = none := rfl
  simp only [calculateScore, calculateScoreRaw, h1, h2, h3, if_true]
  norm_num [min_def]

lemma findMatches_buyerPlain : findMatches lead0 [buyerPlain] none = [m0] := by
  have h1 : getTierLevel buyerPlain.notes = 3 := rfl
  have h2 : servesMarket buyerPlain none = true := rfl
  have hl : getTierLabel buyerPlain.notes = "Tier 3 ACTIVE" := rfl
  simp [findMatches, List.insertionSort, h1, h2, hl, calculateScore_buyerPlain, m0]

lemma activeCount_map (leadId : Nat) (F : LeadRow → LeadRow) (store : List LeadRow)
    (hid : ∀ l, (F l).id = l.id)
    (hset : ∀ l, l.id = leadId → ((F l).assigned_buyer_id).isSome = true)
    (huniq : (store.filter (fun l => l.id == leadId)).length = 1) :
    ((store.map F).filter
        (fun l => l.id == leadId && l.assigned_buyer_id.isSome)).length = 1 := by
  rw [← List.countP_eq_length_filter] at huniq ⊢
  rw [List.countP_map]
  have h' :
      ∀ x ∈ store,
        (((fun l : LeadRow => l.id == leadId && l.assigned_buyer_id.isSome) ∘ F) x
          = true) ↔ ((fun l : LeadRow => l.id == leadId) x = true) := by
    intro x _
    by_cases hx : x.id = leadId
    · simp [Function.comp, hid x, hx, hset x hx]
    · simp [Function.comp, hid x, hx]
  rw [List.countP_congr h']
  exact huniq

/-- C6: a lead carries at most one active buyer assignment.  Assigning
buyer `a` and then buyer `b` to the same lead leaves exactly one stored
row for that lead with an active assignment, and that assignment
references `b` (last write wins). -/
theorem assignLeadToBuyer_last_write_wins (store : List LeadRow) (leadId a b : Nat)
    (t1 t2 : String)
    (huniq : (store.filter (fun l => l.id == leadId)).length = 1) :
    ((assignLeadToBuyer leadId b t2 (assignLeadToBuyer leadId a t1 store)).filter
        (fun l => l.id == leadId && l.assigned_buyer_id.isSome)).length = 1 ∧
    ∀ l ∈ assignLeadToBuyer leadId b t2 (assignLeadToBuyer leadId a t1 store),
      l.id = leadId → l.assigned_buyer_id = some b := by
  unfold assignLeadToBuyer updateLead
  rw [List.map_map]
  constructor
  · refine activeCount_map leadId _ store ?_ ?_ huniq
    · intro l
      by_cases h : l.id = leadId <;> simp [Function.comp, h]
    · intro l h
      simp [Function.comp, h]
  · intro l hl hid
    rcases List.mem_map.mp hl with ⟨x, _, rfl⟩
    by_cases h : x.id = leadId
    · simp [Function.comp, h]
    · simp only [Function.comp, if_neg h] at hid ⊢
      exact absurd hid h

/-- Witness for C6: one stored lead, assigned to buyer 5 then buyer 7:
one active assignment remains and it references buyer 7. -/
theorem assignLeadToBuyer_last_write_wins_witness :
    ((assignLeadToBuyer 1 7 "t2" (assignLeadToBuyer 1 5 "t1" [rowMain])).filter
        (fun l => l.id == 1 && l.assigned_buyer_id.isSome)).length = 1 ∧
    ∀ l ∈ assignLeadToBuyer 1 7 "t2" (assignLeadToBuyer 1 5 "t1" [rowMain]),
      l.id = 1 → l.assigned_buyer_id = some 7 :=
  assignLeadToBuyer_last_write_wins [rowMain] 1 5 7 "t1" "t2" (by decide)

/-- Counterexample to C2: a successful assignment (the lead row is
updated) creates zero Deal records, not exactly one — `createDeal` has
no call site, so the deals table stays empty. -/
theorem assignAction_creates_no_deal :
    (assignAction 1 7 "t0" state0).leads = [rowMainAssigned] ∧
    (assignAction 1 7 "t0" state0).deals = [] := by
  constructor
  · decide
  · rfl

/-- C2 as amended: the assignment path touches only the lead (the deals
table is unchanged), while the separate `createDeal` helper, when
invoked, appends exactly one deal referencing the given lead and buyer,
with status "assigned", list price equal to the estimated value, and
offer price equal to the floor of the IEEE-double product of the value
with 0.7 (characterized by the floor bracket around that rounded
product — not around the exact 7/10 multiple, from which it can
differ). -/
theorem assignment_lead_only_createDeal_one_deal (leadId buyerId : Nat)
    (now ownerName marketName : String) (arv : ℚ) (s : AppState) (ds : List Deal) :
    (assignAction leadId buyerId now s).deals = s.deals ∧
    (createDeal leadId buyerId ownerName marketName arv now ds).length = ds.length + 1 ∧
    (createDeal leadId buyerId ownerName marketName arv now ds).take ds.length = ds ∧
    ∀ d ∈ (createDeal leadId buyerId ownerName marketName arv now ds).drop ds.length,
      d.lead_id = leadId ∧ d.buyer_id = buyerId ∧ d.status = "assigned" ∧
      d.list_price = arv ∧ d.offer_price ≤ dmul arv c07 ∧
      dmul arv c07 < d.offer_price + 1 := by
  refine ⟨rfl, by simp [createDeal], List.take_left ds _, ?_⟩
  intro d hd
  rw [show createDeal leadId buyerId ownerName marketName arv now ds =
        ds ++ [{ lead_id := leadId, buyer_id := buyerId, property_address := ownerName
                 market := marketName, list_price := arv
                 offer_price := ((⌊dmul arv c07⌋ : ℤ) : ℚ), status := "assigned"
                 assigned_date := now }] from rfl, List.drop_left] at hd
  rw [List.mem_singleton] at hd
  subst hd
  refine ⟨rfl, rfl, rfl, rfl, ?_, ?_⟩
  · show ((⌊dmul arv c07⌋ : ℤ) : ℚ) ≤ dmul arv c07
    exact Int.floor_le (dmul arv c07)
  · show dmul arv c07 < ((⌊dmul arv c07⌋ : ℤ) : ℚ) + 1
    exact Int.lt_floor_add_one (dmul arv c07)

lemma roundB64_eval {q : ℚ} {e f : ℤ} (hq : 0 < q) (hlog : Int.log 2 q = e)
    (hfl : ⌊q * (2 : ℚ) ^ (52 - e)⌋ = f)
    (hr : q * (2 : ℚ) ^ (52 - e) - (f : ℚ) < 1 / 2) :
    roundB64 q = (f : ℚ) * (2 : ℚ) ^ (e - 52) := by
  unfold roundB64 rne
  rw [if_neg (ne_of_gt hq), if_neg (not_lt.mpr hq.le), abs_of_pos hq]
  simp only [hlog, hfl]
  rw [if_pos hr, one_mul]

lemma dmul_90000_c07 : dmul 90000 c07 = 8658654068735999 / 137438953472 := by
  have hq : (90000 : ℚ) * c07 = 17732923532771326875 / 281474976710656 := by
    norm_num [c07]
  have hnfl : ⌊((17732923532771326875 : ℚ) / 281474976710656)⌋₊ = 62999 := by
    rw [Nat.floor_eq_iff (by norm_num)]
    norm_num
  have hlog : Int.log 2 ((17732923532771326875 : ℚ) / 281474976710656) = 15 := by
    rw [Int.log_of_one_le_right 2 (by norm_num), hnfl]
    exact_mod_cast Nat.log_eq_of_pow_le_of_lt_pow (by norm_num) (by norm_num)
  have hfl :
      ⌊((17732923532771326875 : ℚ) / 281474976710656) * (2 : ℚ) ^ ((52 : ℤ) - 15)⌋
        = 8658654068735999 := by
    norm_num
  have hr :
      ((17732923532771326875 : ℚ) / 281474976710656) * (2 : ℚ) ^ ((52 : ℤ) - 15)
        - ((8658654068735999 : ℤ) : ℚ) < 1 / 2 := by
    norm_num
  unfold dmul
  rw [hq, roundB64_eval (by norm_num) hlog hfl hr]
  norm_num

/-- Witness for C2-as-amended: the deal created for a lead valued 90000
carries offer price 62999 = ⌊62999.99999999999⌋, bracketed by the floor
inequalities around the double product — and distinct from the exact
70% of the value, which is 63000. -/
theorem assignment_lead_only_createDeal_one_deal_witness :
    (dealLit.lead_id = 1 ∧ dealLit.buyer_id = 7 ∧ dealLit.status = "assigned" ∧
      dealLit.list_price = 90000 ∧ dealLit.offer_price ≤ dmul 90000 c07 ∧
      dmul 90000 c07 < dealLit.offer_price + 1) ∧
    dealLit.offer_price ≠ (7 / 10) * 90000 :=
  ⟨(assignment_lead_only_createDeal_one_deal 1 7 "t0" "John Doe" "Birmingham, AL"
      90000 state0 []).2.2.2 dealLit
      (by simp [createDeal, dealLit]; rw [dmul_90000_c07]; norm_num),
   by norm_num [dealLit]⟩

/-- Counterexample to C4: importing a batch whose single candidate
duplicates a stored address returns success count 0 and error count 0 —
the duplicate increments no returned count, and the returned pair has
no skipped component at all. -/
theorem importLeads_no_skipped_count :
    importLeads [rowMain] [rowMain] = ([rowMain], 0, 0) := by decide

lemma importLeads_shift (cands : List LeadRow) (store : List LeadRow) (s e : Nat) :
    cands.foldl importStep (store, s, e) =
      ((importLeads cands store).1, s + (importLeads cands store).2.1,
        e + (importLeads cands store).2.2) := by
  induction cands generalizing store s e with
  | nil => simp [importLeads]
  | cons c rest ih =>
    by_cases h :
        (store.filter (fun l => l.property_address == c.property_address)).length = 1
    · simp only [importLeads, List.foldl_cons, importStep]
      rw [if_pos h, if_pos h]
      exact ih store s e
    · simp only [importLeads, List.foldl_cons, importStep]
      rw [if_neg h, ih (store ++ [c]) (s + 1) e, if_neg h, ih (store ++ [c]) 1 0]
      simp only [Prod.mk.injEq, true_and]
      omega

/-- C4 as amended: a candidate whose address matches exactly one stored
row leaves the result of the import unchanged — it increments neither
returned count (the source merely logs the duplicate; no skipped count
exists in the returned pair) — while a candidate whose address matches
zero stored rows, or (because the single-row lookup reports an error
with null data) several stored rows, is inserted and increments the
returned success count; the operation returns a success count and an
error count. -/
theorem importLeads_counts (c : LeadRow) (rest store : List LeadRow) :
    ((store.filter (fun l => l.property_address == c.property_address)).length = 1 →
      importLeads (c :: rest) store = importLeads rest store) ∧
    ((store.filter (fun l => l.property_address == c.property_address)).length ≠ 1 →
      (importLeads (c :: rest) store).1 = (importLeads rest (store ++ [c])).1 ∧
      (importLeads (c :: rest) store).2.1 =
        (importLeads rest (store ++ [c])).2.1 + 1 ∧
      (importLeads (c :: rest) store).2.2 =
        (importLeads rest (store ++ [c])).2.2) := by
  constructor
  · intro h
    simp only [importLeads, List.foldl_cons, importStep]
    rw [if_pos h]
  · intro h
    have hs := importLeads_shift rest (store ++ [c]) 1 0
    simp only [importLeads, List.foldl_cons, importStep]
    rw [if_neg h, hs]
    refine ⟨rfl, ?_, ?_⟩ <;> (simp only [importLeads]; omega)

/-- Witness for C4-as-amended: a candidate matching the single stored
copy of its address changes nothing; a fresh address is inserted and
counted as the one success; and a candidate whose address is stored
twice is re-inserted and counted as a success — the collapsed error
path of the single-row lookup. -/
theorem importLeads_counts_witness :
    importLeads [rowMain] [rowMain] = importLeads [] [rowMain] ∧
    (importLeads [rowOak] []).2.1 = (importLeads [] [rowOak]).2.1 + 1 ∧
    (importLeads [rowMain] [rowMain, rowMain]).2.1 =
      (importLeads [] [rowMain, rowMain, rowMain]).2.1 + 1 :=
  ⟨(importLeads_counts rowMain [] [rowMain]).1 (by decide),
   ((importLeads_counts rowOak [] []).2 (by decide)).2.1,
   ((importLeads_counts rowMain [] [rowMain, rowMain]).2 (by decide)).2.1⟩

/-- Witness for C9: the single match for an un-scoped tier-3 buyer has
score exactly 50 — the lower bound is attained. -/
theorem findMatches_score_lower_bound_witness :
    m0 ∈ findMatches lead0 [buyerPlain] none ∧ 50 ≤ m0.match_score :=
  ⟨by rw [findMatches_buyerPlain]; exact List.mem_singleton.mpr rfl,
   findMatches_score_lower_bound lead0 [buyerPlain] none m0
     (by rw [findMatches_buyerPlain]; exact List.mem_singleton.mpr rfl)⟩
